import Mathlib

/-
  Verification development for the Two-Step Order Cleaner.

  The transformation core of src/two_step_order_cleaner.py is embedded
  shallowly below.  A worksheet parsed by pandas (header=None, dtype=object)
  is a rectangular frame; we model it as a list of rows of cells, where a
  cell is either a missing value (pandas NaN) or a value already coerced to
  the text that Python's str() would produce for it.  Width is the maximal
  row length, and reading a padded position yields the missing cell, exactly
  as pandas pads short rows with NaN.
-/

namespace OrderCleaner

/-- A worksheet cell: either missing (pandas NaN) or a value, represented by
the text Python's str() produces for it. -/
inductive Cell where
  | na : Cell
  | val : String → Cell
deriving DecidableEq, Repr

/-- The coercion performed by pandas Series.astype(str): a missing cell (NaN)
becomes the three-letter string "nan"; any other value becomes its str() text.
Note the source applies .fillna("") after .astype(str), which is a no-op,
since after astype(str) no NaN remains. -/
def Cell.toText : Cell → String
  | Cell.na => "nan"
  | Cell.val s => s

/-- A worksheet grid, row-major. -/
abbrev Grid := List (List Cell)

/-- Width of the grid: the number of columns of the parsed DataFrame, i.e. the
maximal row length. -/
def gwidth (g : Grid) : Nat := (g.map List.length).foldr Nat.max 0

/-- Cell at row r, column c; positions beyond a row's length read as missing,
matching pandas' NaN padding of short rows. -/
def gcell (g : Grid) (r c : Nat) : Cell := (g.getD r []).getD c Cell.na

/-- Python str.strip(): drop whitespace from both ends. -/
def pyStrip (s : String) : String :=
  String.mk (((s.data.dropWhile Char.isWhitespace).reverse.dropWhile Char.isWhitespace).reverse)

/-- Python str.startswith. -/
def pyStarts (s pre : String) : Bool := List.isPrefixOf pre.data s.data

/-- The supplier-column label searched for in row 0. -/
def supplierLabel : String := "ძირითადი მომწოდებელი"

/-- find_col from the source: index of the first entry whose stripped text
equals name_exact, None if there is no such entry. -/
def find_col : List String → String → Option Nat
  | [], _ => none
  | v :: rest, name =>
      if pyStrip v = name then some 0 else (find_col rest name).map (fun i => i + 1)

/-- Row 0 of the grid coerced to text (hdr_nickname in the source). -/
def hdr_nickname (g : Grid) : List String :=
  (List.range (gwidth g)).map (fun c => (gcell g 0 c).toText)

/-- Row 1 of the grid coerced to text (hdr_address in the source). -/
def hdr_address (g : Grid) : List String :=
  (List.range (gwidth g)).map (fun c => (gcell g 1 c).toText)

/-- Leftmost match of the regular expression the source actually contains,
which is the raw string with a DOUBLED backslash: hash, escaped backslash,
one or more literal letters d, hash.  The captured group is the backslash
together with the run of d letters.  (The pattern as written does NOT match
hash-digits-hash tokens.)  re.search semantics: try each start position from
the left; the quantified d-run is greedy, and giving characters back can
never make the closing hash match, so greedy matching is exact. -/
def scanToken : List Char → Option String
  | [] => none
  | c :: rest =>
      if c = '#' then
        match rest with
        | '\\' :: rest2 =>
            let ds := rest2.takeWhile (fun ch => ch = 'd')
            match rest2.dropWhile (fun ch => ch = 'd') with
            | '#' :: _ => if ds.isEmpty then scanToken rest else some (String.mk ('\\' :: ds))
            | _ => scanToken rest
        | _ => scanToken rest
      else scanToken rest

/-- shop_cols_map from the source, as a partial map from column index to the
captured token of its row-1 cell. -/
def shop_cols_map (g : Grid) (c : Nat) : Option String :=
  scanToken ((gcell g 1 c).toText).data

/-- Membership of a column in the clear-set: its mapped token is one of the
codes to clear, or its stripped row-0 label is one of the nicknames. -/
def inClearSet (g : Grid) (codes nicks : List String) (c : Nat) : Bool :=
  (match shop_cols_map g c with
   | some code => decide (code ∈ codes)
   | none => false)
  || decide (pyStrip ((gcell g 0 c).toText) ∈ nicks)

/-- columns_to_clear from the source: the set (here: nodup list) of column
indices selected for clearing. -/
def columns_to_clear (g : Grid) (codes nicks : List String) : List Nat :=
  (List.range (gwidth g)).filter (fun c => inClearSet g codes nicks c)

/-- A column is a West column when its stripped row-0 label starts with the
given west prefix string. -/
def isWest (g : Grid) (west : String) (c : Nat) : Bool :=
  pyStarts (pyStrip ((gcell g 0 c).toText)) west

/-- west_cols from the source: indices of the West columns. -/
def west_cols (g : Grid) (west : String) : List Nat :=
  (List.range (gwidth g)).filter (fun c => isWest g west c)

/-- The column indices that survive to the output, in order. -/
def survivorCols (g : Grid) (west : String) : List Nat :=
  (List.range (gwidth g)).filter (fun c => !(isWest g west c))

/-- A row is protected when its supplier-column cell, coerced to text and
stripped, equals the protected supplier value. -/
def is_protected (g : Grid) (colSup : Nat) (prot : String) (r : Nat) : Bool :=
  decide (pyStrip ((gcell g r colSup).toText) = prot)

/-- A row is eligible for clearing when it is a data row (index at least 3)
and not protected. -/
def eligibleRow (g : Grid) (colSup : Nat) (prot : String) (r : Nat) : Bool :=
  decide (3 ≤ r) && !(is_protected g colSup prot r)

/-- rows_to_edit from the source: indices of the eligible rows. -/
def rows_to_edit (g : Grid) (colSup : Nat) (prot : String) : List Nat :=
  (List.range g.length).filter (fun r => eligibleRow g colSup prot r)

/-- The value of cell (r, c) after the clearing step: eligible rows in
clear-set columns become the explicit empty string, everything else is kept. -/
def mutCell (g : Grid) (colSup : Nat) (codes nicks : List String) (prot : String)
    (r c : Nat) : Cell :=
  if eligibleRow g colSup prot r && inClearSet g codes nicks c then Cell.val ""
  else gcell g r c

/-- cleared_cells from the source: for each clear-set column, the number of
eligible rows whose prior cell was not missing. -/
def cleared_cells (g : Grid) (colSup : Nat) (codes nicks : List String) (prot : String) : Nat :=
  ((columns_to_clear g codes nicks).map
    (fun c => ((rows_to_edit g colSup prot).filter
      (fun r => !(decide (gcell g r c = Cell.na)))).length)).sum

/-- The summary record produced by transform_order (the sheet name, purely
an artifact of workbook I/O, lives outside the grid model). -/
structure Summary where
  columns_to_clear_count : Nat
  west_columns_dropped : Nat
  rows_eligible_by_supplier_rule : Nat
  cleared_cells_estimate : Nat
  protected_supplier : String
deriving DecidableEq, Repr

/-- The body of transform_order once the supplier column has been located:
clear eligible cells, drop the West columns, and produce the summary. -/
def transform_core (g : Grid) (colSup : Nat) (codes nicks : List String)
    (prot west : String) : Grid × Summary :=
  ((List.range g.length).map
      (fun r => (survivorCols g west).map (fun c => mutCell g colSup codes nicks prot r c)),
   { columns_to_clear_count := (columns_to_clear g codes nicks).length
     west_columns_dropped := (west_cols g west).length
     rows_eligible_by_supplier_rule := (rows_to_edit g colSup prot).length
     cleared_cells_estimate := cleared_cells g colSup codes nicks prot
     protected_supplier := prot })

/-- transform_order from the source, at grid level (workbook parsing and
serialization are the external spreadsheet I/O collaborators). -/
def transform_order (g : Grid) (codes nicks : List String) (prot west : String) :
    Except String (Grid × Summary) :=
  match find_col (hdr_nickname g) supplierLabel with
  | none => Except.error "Could not find supplier column in the first row."
  | some colSup => Except.ok (transform_core g colSup codes nicks prot west)

/-- A parsed reference table: column name to the list of its cell texts.
This is the view produced by pandas read_excel with dtype=str followed by
fillna("") — all text, missing cells as the empty string. -/
abbrev RefTable := List (String × List String)

/-- Column lookup by name in a reference table. -/
def lookupCol (tpl : RefTable) (name : String) : Option (List String) :=
  (tpl.find? (fun p => p.1 == name)).map Prod.snd

/-- The substitution performed by the source's str.replace with the raw
pattern of a DOUBLED backslash followed by dot zero dollar: as a regex this
is an escaped backslash, then any character except newline, then the digit
zero, anchored at the end of the string (or just before one trailing
newline).  It does NOT remove a trailing ".0". -/
def strip_dot0 (s : String) : String :=
  match s.data.reverse with
  | '0' :: c :: '\\' :: rest => if c = '\n' then s else String.mk rest.reverse
  | '\n' :: '0' :: c :: '\\' :: rest =>
      if c = '\n' then s else String.mk (rest.reverse ++ ['\n'])
  | _ => s

/-- Shared body of load_template_from_file and load_template_from_bytes
(the two entry points are line-for-line identical after the table has been
parsed): require the shop_code column, default the optional nickname column
to an all-empty column, normalize, and drop empties. -/
def load_template (tpl : RefTable) : Except String (List String × List String) :=
  match lookupCol tpl "shop_code" with
  | none => Except.error "Template must contain a column named shop_code."
  | some codeCol =>
      let nickCol := (lookupCol tpl "shop_nickname_optional").getD (codeCol.map (fun _ => ""))
      Except.ok
        ((codeCol.map (fun s => pyStrip (strip_dot0 s))).filter (fun s => !(decide (s = ""))),
         (nickCol.map (fun s => pyStrip s)).filter (fun s => !(decide (s = ""))))

/-! Concrete example data used in witnesses and counterexamples. -/

/-- A small order grid: supplier column, a shop column with nickname and a
hash-delimited address token, a West aggregate column, and a plain column;
one protected data row and one eligible data row. -/
def gEx : Grid :=
  [[Cell.val "ძირითადი მომწოდებელი", Cell.val "ვანთა", Cell.val "დასავლეთი სულ", Cell.val "სხვა"],
   [Cell.val "", Cell.val "#003# მისამართი", Cell.val "", Cell.val ""],
   [Cell.val "შესაკვეთი", Cell.val "რაოდენობა", Cell.val "", Cell.val ""],
   [Cell.val "გაგრა პლუსი", Cell.val "10", Cell.val "1", Cell.val "a"],
   [Cell.val "სხვა მომწ", Cell.val "20", Cell.val "2", Cell.val "b"]]

/-- The grid transform_order produces from gEx with codes 003 and nickname
ვანთა: the shop column is cleared on the eligible row only, the West column
is dropped. -/
def outEx : Grid :=
  [[Cell.val "ძირითადი მომწოდებელი", Cell.val "ვანთა", Cell.val "სხვა"],
   [Cell.val "", Cell.val "#003# მისამართი", Cell.val ""],
   [Cell.val "შესაკვეთი", Cell.val "რაოდენობა", Cell.val ""],
   [Cell.val "გაგრა პლუსი", Cell.val "10", Cell.val "a"],
   [Cell.val "სხვა მომწ", Cell.val "", Cell.val "b"]]

/-- The summary transform_order produces from gEx. -/
def sEx : Summary :=
  { columns_to_clear_count := 1
    west_columns_dropped := 1
    rows_eligible_by_supplier_rule := 1
    cleared_cells_estimate := 1
    protected_supplier := "გაგრა პლუსი" }

/-- A grid whose row-1 cell carries the shop-code token of the spec's own
example scenario. -/
def gC2 : Grid := [[Cell.val "ნიკი"], [Cell.val "#037# and also #099#"]]

/-- A reference table whose identifier column holds the numeric-coercion
artifact value. -/
def tplC3 : RefTable := [("shop_code", ["465.0"])]

/-- A grid with a missing (NaN) row-0 cell in column 1 and a data row; used
to exhibit how astype(str) turns missing cells into the text "nan". -/
def gC7 : Grid :=
  [[Cell.val "ძირითადი მომწოდებელი", Cell.na],
   [Cell.val "", Cell.val ""],
   [Cell.val "", Cell.val ""],
   [Cell.val "x", Cell.val "5"]]

/-- The output transform_order produces from gC7 with nickname list
containing the text "nan". -/
def outC7 : Grid :=
  [[Cell.val "ძირითადი მომწოდებელი", Cell.na],
   [Cell.val "", Cell.val ""],
   [Cell.val "", Cell.val ""],
   [Cell.val "x", Cell.val ""]]

/-- The summary transform_order produces from gC7. -/
def sC7 : Summary :=
  { columns_to_clear_count := 1
    west_columns_dropped := 0
    rows_eligible_by_supplier_rule := 1
    cleared_cells_estimate := 1
    protected_supplier := "გაგრა პლუსი" }

/-- A grid without a supplier-label column. -/
def gNoSup : Grid := [[Cell.val "a"], [Cell.val "b"]]

/-- A reference table with the required identifier column and no nickname
column. -/
def tplW : RefTable := [("shop_code", ["7"]), ("notes_optional", ["n"])]

/-- A one-column grid whose only column is both the supplier column and a
West column (its label starts with the one-letter west value). -/
def gCX : Grid :=
  [[Cell.val "ძირითადი მომწოდებელი"],
   [Cell.val "x"],
   [Cell.val "l"],
   [Cell.val "s"]]

/-- The output of transform_order on gCX with west value ძ: every column is
dropped. -/
def outCX : Grid := [[], [], [], []]

/-- The summary of transform_order on gCX with west value ძ. -/
def sCX : Summary :=
  { columns_to_clear_count := 0
    west_columns_dropped := 1
    rows_eligible_by_supplier_rule := 1
    cleared_cells_estimate := 0
    protected_supplier := "p" }

/-! List access helper lemmas. -/

lemma getD_map_range {α : Type} (f : Nat → α) (d : α) {w c : Nat} (h : c < w) :
    ((List.range w).map f).getD c d = f c := by
  rw [List.getD_eq_getElem?_getD, List.getElem?_map, List.getElem?_range h]
  rfl

lemma getD_map_of_lt {α β : Type} (l : List α) (f : α → β) (dβ : β) (dα : α) {i : Nat}
    (h : i < l.length) : (l.map f).getD i dβ = f (l.getD i dα) := by
  rw [List.getD_eq_getElem?_getD, List.getElem?_map, List.getElem?_eq_getElem h,
    List.getD_eq_getElem?_getD, List.getElem?_eq_getElem h]
  rfl

lemma getD_eq_getElem {α : Type} (l : List α) (d : α) {i : Nat} (h : i < l.length) :
    l.getD i d = l[i] := by
  rw [List.getD_eq_getElem?_getD, List.getElem?_eq_getElem h]
  rfl

lemma gwidth_of_const_rows : ∀ (g : Grid) (k : Nat),
    (∀ row ∈ g, row.length = k) → g ≠ [] → gwidth g = k := by
  intro g
  induction g with
  | nil => intro k _ hne; exact absurd rfl hne
  | cons row rest ih =>
    intro k hall _
    have hrow : row.length = k := hall row (List.mem_cons_self row rest)
    cases rest with
    | nil =>
      have h1 : gwidth [row] = Nat.max row.length 0 := rfl
      rw [h1, hrow]
      exact Nat.max_zero k
    | cons r2 rest2 =>
      have htail : gwidth (r2 :: rest2) = k := by
        apply ih k
        · intro rr hrr; exact hall rr (List.mem_cons_of_mem row hrr)
        · exact List.cons_ne_nil r2 rest2
      have h1 : gwidth (row :: r2 :: rest2) = Nat.max row.length (gwidth (r2 :: rest2)) := rfl
      rw [h1, htail, hrow]
      exact Nat.max_self k

/-! Characterizations of find_col. -/

lemma find_col_eq_none_iff (name : String) :
    ∀ hdr : List String, find_col hdr name = none ↔
      ∀ j, j < hdr.length → pyStrip (hdr.getD j "") ≠ name := by
  intro hdr
  induction hdr with
  | nil => simp [find_col]
  | cons v rest ih =>
    by_cases h : pyStrip v = name
    · simp only [find_col, if_pos h]
      constructor
      · intro hc; exact absurd hc (by simp)
      · intro hall; exact absurd h (hall 0 (by simp))
    · simp only [find_col, if_neg h, Option.map_eq_none']
      rw [ih]
      constructor
      · intro hall j hj
        cases j with
        | zero => simpa using h
        | succ j' =>
          have : j' < rest.length := by simpa using hj
          simpa using hall j' this
      · intro hall j hj
        have := hall (j + 1) (by simpa using Nat.succ_lt_succ hj)
        simpa using this

lemma find_col_eq_some_iff (name : String) :
    ∀ (hdr : List String) (i : Nat), find_col hdr name = some i ↔
      i < hdr.length ∧ pyStrip (hdr.getD i "") = name ∧
        ∀ j, j < i → pyStrip (hdr.getD j "") ≠ name := by
  intro hdr
  induction hdr with
  | nil => intro i; simp [find_col]
  | cons v rest ih =>
    intro i
    by_cases h : pyStrip v = name
    · simp only [find_col, if_pos h]
      constructor
      · intro hc
        have h0 : i = 0 := (Option.some.inj hc).symm
        subst h0
        refine ⟨by simp, by simpa using h, ?_⟩
        intro j hj; omega
      · rintro ⟨hi, hmatch, hfirst⟩
        cases i with
        | zero => rfl
        | succ i' => exact absurd h (hfirst 0 (Nat.succ_pos i'))
    · simp only [find_col, if_neg h, Option.map_eq_some']
      constructor
      · rintro ⟨i', hi', rfl⟩
        obtain ⟨h1, h2, h3⟩ := (ih i').mp hi'
        refine ⟨by simpa using Nat.succ_lt_succ h1, by simpa using h2, ?_⟩
        intro j hj
        cases j with
        | zero => simpa using h
        | succ j' => simpa using h3 j' (Nat.lt_of_succ_lt_succ hj)
      · rintro ⟨h1, h2, h3⟩
        cases i with
        | zero => exact absurd (by simpa using h2) h
        | succ i' =>
          refine ⟨i', (ih i').mpr ⟨?_, ?_, ?_⟩, rfl⟩
          · simpa using Nat.lt_of_succ_lt_succ h1
          · simpa using h2
          · intro j hj
            have := h3 (j + 1) (Nat.succ_lt_succ hj)
            simpa using this

/-! Headers of a grid. -/

lemma hdr_nickname_length (g : Grid) : (hdr_nickname g).length = gwidth g := by
  simp [hdr_nickname]

lemma hdr_nickname_getD (g : Grid) {c : Nat} (h : c < gwidth g) :
    (hdr_nickname g).getD c "" = (gcell g 0 c).toText :=
  getD_map_range _ _ h

lemma find_col_hdr_none_iff (g : Grid) :
    find_col (hdr_nickname g) supplierLabel = none ↔
      ∀ c, c < gwidth g → pyStrip ((gcell g 0 c).toText) ≠ supplierLabel := by
  rw [find_col_eq_none_iff]
  constructor
  · intro h c hc
    have := h c (by rw [hdr_nickname_length]; exact hc)
    rwa [hdr_nickname_getD g hc] at this
  · intro h c hc
    rw [hdr_nickname_length] at hc
    rw [hdr_nickname_getD g hc]
    exact h c hc

lemma find_col_hdr_some_iff (g : Grid) (j : Nat) :
    find_col (hdr_nickname g) supplierLabel = some j ↔
      j < gwidth g ∧ pyStrip ((gcell g 0 j).toText) = supplierLabel ∧
        ∀ c, c < j → pyStrip ((gcell g 0 c).toText) ≠ supplierLabel := by
  rw [find_col_eq_some_iff]
  constructor
  · rintro ⟨h1, h2, h3⟩
    rw [hdr_nickname_length] at h1
    refine ⟨h1, ?_, ?_⟩
    · rwa [hdr_nickname_getD g h1] at h2
    · intro c hc
      have hcw : c < gwidth g := lt_trans hc h1
      have := h3 c hc
      rwa [hdr_nickname_getD g hcw] at this
  · rintro ⟨h1, h2, h3⟩
    refine ⟨by rw [hdr_nickname_length]; exact h1, ?_, ?_⟩
    · rwa [hdr_nickname_getD g h1]
    · intro c hc
      have hcw : c < gwidth g := lt_trans hc h1
      rw [hdr_nickname_getD g hcw]
      exact h3 c hc

/-! Survivor columns. -/

lemma mem_survivorCols (g : Grid) (west : String) (c : Nat) :
    c ∈ survivorCols g west ↔ c < gwidth g ∧ isWest g west c = false := by
  simp [survivorCols, List.mem_filter, List.mem_range]

lemma survivorCols_pairwise (g : Grid) (west : String) :
    (survivorCols g west).Pairwise (fun a b => a < b) :=
  (List.pairwise_lt_range (gwidth g)).sublist (List.filter_sublist _)

lemma length_filter_not_add {α : Type} (l : List α) (p : α → Bool) :
    (l.filter (fun a => !(p a))).length + (l.filter p).length = l.length := by
  induction l with
  | nil => rfl
  | cons a t ih =>
    by_cases h : p a <;> simp [List.filter_cons, h] <;> omega

lemma survivorCols_length_add (g : Grid) (west : String) :
    (survivorCols g west).length + (west_cols g west).length = gwidth g := by
  have h := length_filter_not_add (List.range (gwidth g)) (fun c => isWest g west c)
  rw [List.length_range] at h
  exact h

/-! Access to the transformed grid. -/

lemma transform_core_fst_length (g : Grid) (colSup : Nat) (codes nicks : List String)
    (prot west : String) :
    (transform_core g colSup codes nicks prot west).1.length = g.length := by
  simp [transform_core]

lemma transform_core_row (g : Grid) (colSup : Nat) (codes nicks : List String)
    (prot west : String) {r : Nat} (hr : r < g.length) :
    (transform_core g colSup codes nicks prot west).1.getD r []
      = (survivorCols g west).map (fun c => mutCell g colSup codes nicks prot r c) :=
  getD_map_range _ _ hr

lemma gcell_transform_core (g : Grid) (colSup : Nat) (codes nicks : List String)
    (prot west : String) {r i : Nat} (hr : r < g.length)
    (hi : i < (survivorCols g west).length) :
    gcell (transform_core g colSup codes nicks prot west).1 r i
      = mutCell g colSup codes nicks prot r ((survivorCols g west).getD i 0) := by
  unfold gcell
  rw [transform_core_row g colSup codes nicks prot west hr]
  exact getD_map_of_lt _ _ _ 0 hi

lemma transform_core_width (g : Grid) (colSup : Nat) (codes nicks : List String)
    (prot west : String) (hg : 1 ≤ g.length) :
    gwidth (transform_core g colSup codes nicks prot west).1
      = (survivorCols g west).length := by
  apply gwidth_of_const_rows
  · intro row hrow
    obtain ⟨r, -, rfl⟩ := List.mem_map.mp hrow
    exact List.length_map _ _
  · intro hnil
    have := transform_core_fst_length g colSup codes nicks prot west
    rw [hnil] at this
    simp at this
    omega

/-! Facts about the cell mutation. -/

lemma mutCell_of_lt_three (g : Grid) (colSup : Nat) (codes nicks : List String)
    (prot : String) {r : Nat} (hr : r < 3) (c : Nat) :
    mutCell g colSup codes nicks prot r c = gcell g r c := by
  have h3 : decide (3 ≤ r) = false := by simp; omega
  simp [mutCell, eligibleRow, h3]

lemma mutCell_of_protected (g : Grid) (colSup : Nat) (codes nicks : List String)
    (prot : String) {r : Nat} (hp : is_protected g colSup prot r = true) (c : Nat) :
    mutCell g colSup codes nicks prot r c = gcell g r c := by
  simp [mutCell, eligibleRow, hp]

lemma mutCell_clear (g : Grid) (colSup : Nat) (codes nicks : List String)
    (prot : String) {r c : Nat} (he : eligibleRow g colSup prot r = true)
    (hc : inClearSet g codes nicks c = true) :
    mutCell g colSup codes nicks prot r c = Cell.val "" := by
  simp [mutCell, he, hc]

lemma mutCell_not_clear (g : Grid) (colSup : Nat) (codes nicks : List String)
    (prot : String) {r c : Nat}
    (h : (eligibleRow g colSup prot r && inClearSet g codes nicks c) = false) :
    mutCell g colSup codes nicks prot r c = gcell g r c := by
  simp [mutCell, h]

/-! Unfolding transform_order. -/

lemma transform_order_eq_ok (g : Grid) (codes nicks : List String) (prot west : String)
    (colSup : Nat) (h : find_col (hdr_nickname g) supplierLabel = some colSup) :
    transform_order g codes nicks prot west
      = Except.ok (transform_core g colSup codes nicks prot west) := by
  unfold transform_order
  rw [h]

lemma transform_order_eq_error (g : Grid) (codes nicks : List String) (prot west : String)
    (h : find_col (hdr_nickname g) supplierLabel = none) :
    transform_order g codes nicks prot west
      = Except.error "Could not find supplier column in the first row." := by
  unfold transform_order
  rw [h]

lemma transform_order_ok_inv (g : Grid) (codes nicks : List String) (prot west : String)
    (out : Grid) (s : Summary)
    (h : transform_order g codes nicks prot west = Except.ok (out, s)) :
    ∃ colSup, find_col (hdr_nickname g) supplierLabel = some colSup ∧
      out = (transform_core g colSup codes nicks prot west).1 ∧
      s = (transform_core g colSup codes nicks prot west).2 := by
  cases hf : find_col (hdr_nickname g) supplierLabel with
  | none =>
    rw [transform_order_eq_error g codes nicks prot west hf] at h
    exact absurd h (by simp)
  | some colSup =>
    rw [transform_order_eq_ok g codes nicks prot west colSup hf] at h
    have hps : (out, s) = transform_core g colSup codes nicks prot west :=
      (Except.ok.inj h).symm
    exact ⟨colSup, rfl, congrArg Prod.fst hps, congrArg Prod.snd hps⟩

lemma inClearSet_eq_true_iff (g : Grid) (codes nicks : List String) (c : Nat) :
    inClearSet g codes nicks c = true ↔
      (∃ code, shop_cols_map g c = some code ∧ code ∈ codes) ∨
        pyStrip ((gcell g 0 c).toText) ∈ nicks := by
  unfold inClearSet
  cases h : shop_cols_map g c with
  | none => simp [h]
  | some code => simp [h]

lemma filter_map_const_empty {α : Type} (l : List α) :
    ((l.map (fun _ => "")).map (fun s => pyStrip s)).filter (fun s => !(decide (s = ""))) = [] := by
  induction l with
  | nil => rfl
  | cons a t ih =>
    have h : (!(decide ((pyStrip "") = ""))) = false := rfl
    simp only [List.map_cons, List.filter_cons, h]
    exact ih

/-! The claims. -/

/-- C1: Protection invariant — for a grid whose supplier column is found at
index colSup, every data row (index at least 3) whose supplier cell, coerced
to text and stripped, equals protected_supplier keeps every one of its cells
in every surviving (non-West) output column, whatever the clear-set is. -/
theorem protected_row_untouched
    (g : Grid) (codes nicks : List String) (prot west : String)
    (out : Grid) (s : Summary) (colSup r : Nat)
    (hok : transform_order g codes nicks prot west = Except.ok (out, s))
    (hcol : find_col (hdr_nickname g) supplierLabel = some colSup)
    (hr3 : 3 ≤ r) (hrn : r < g.length)
    (hprot : pyStrip ((gcell g r colSup).toText) = prot) :
    ∀ i, i < (survivorCols g west).length →
      gcell out r i = gcell g r ((survivorCols g west).getD i 0) := by
  intro i hi
  obtain ⟨colSup2, hcol2, hout, -⟩ := transform_order_ok_inv g codes nicks prot west out s hok
  rw [hcol] at hcol2
  have hcs : colSup2 = colSup := (Option.some.inj hcol2).symm
  subst hcs
  rw [hout, gcell_transform_core g colSup2 codes nicks prot west hrn hi]
  exact mutCell_of_protected g colSup2 codes nicks prot (by simp [is_protected, hprot]) _

/-- Witness for C1: on the concrete grid gEx the protected data row 3 keeps
its cell in the last surviving column. -/
theorem protected_row_untouched_witness : gcell outEx 3 2 = Cell.val "a" := by
  have h := protected_row_untouched gEx ["003"] ["ვანთა"] "გაგრა პლუსი" "დასავლეთი"
    outEx sEx 0 3 (by rfl) (by rfl) (by omega) (by decide) (by decide) 2 (by decide)
  rw [h]
  rfl

/-- C2: the column-to-shop-code map records nothing for a row-1 cell that
contains hash-digits-hash tokens (the spec's own example), because the
pattern in the source has a doubled backslash; what the written pattern
does match is a hash, a backslash, letters d, and a hash. -/
theorem shop_code_map_records_nothing :
    shop_cols_map gC2 0 = none ∧
      shop_cols_map [[Cell.val "x"], [Cell.val "#\\dd#"]] 0 = some "\\dd" := ⟨rfl, rfl⟩

/-- C3: the loader does not strip the trailing dot-zero of an identifier:
the cell 465.0 survives normalization unchanged, so the resulting set holds
465.0 and not 465. -/
theorem shop_code_dot_zero_kept :
    load_template tplC3 = Except.ok (["465.0"], []) ∧ strip_dot0 "465.0" = "465.0" :=
  ⟨rfl, rfl⟩

/-- C4: clear-set union semantics — a column of the grid is in the clear-set
exactly when its mapped shop code is in the codes list or its stripped row-0
label is in the nicknames list; and the clear-set has no duplicates, so
matching by both keys has no additional effect. -/
theorem clear_set_membership (g : Grid) (codes nicks : List String) (c : Nat)
    (hc : c < gwidth g) :
    (c ∈ columns_to_clear g codes nicks ↔
      (∃ code, shop_cols_map g c = some code ∧ code ∈ codes) ∨
        pyStrip ((gcell g 0 c).toText) ∈ nicks) ∧
    (columns_to_clear g codes nicks).Nodup := by
  refine ⟨?_, (List.nodup_range _).filter _⟩
  rw [columns_to_clear, List.mem_filter, List.mem_range, inClearSet_eq_true_iff]
  constructor
  · rintro ⟨-, h⟩
    exact h
  · intro h
    exact ⟨hc, h⟩

/-- Witness for C4: on gEx, column 1 (nickname match) is in the clear-set. -/
theorem clear_set_membership_witness :
    1 ∈ columns_to_clear gEx ["003"] ["ვანთა"] :=
  ((clear_set_membership gEx ["003"] ["ვანთა"] 1 (by decide)).1).mpr (Or.inr (by decide))

/-- C5: West removal — the output has as many rows as the input, its width is
the input width minus the number of West columns, every row shrinks to the
surviving columns, every surviving column is non-West, every non-West column
survives (independently of the clear-set), and the summary counts the West
columns dropped. -/
theorem west_columns_removed (g : Grid) (codes nicks : List String) (prot west : String)
    (out : Grid) (s : Summary)
    (hrows : 2 ≤ g.length)
    (hok : transform_order g codes nicks prot west = Except.ok (out, s)) :
    out.length = g.length ∧
    gwidth out + (west_cols g west).length = gwidth g ∧
    (∀ r, r < g.length → (out.getD r []).length = (survivorCols g west).length) ∧
    (∀ i, i < (survivorCols g west).length →
        isWest g west ((survivorCols g west).getD i 0) = false) ∧
    (∀ c, c < gwidth g → isWest g west c = false → c ∈ survivorCols g west) ∧
    s.west_columns_dropped = (west_cols g west).length := by
  obtain ⟨colSup, hcol, hout, hs⟩ := transform_order_ok_inv g codes nicks prot west out s hok
  refine ⟨?_, ?_, ?_, ?_, ?_, ?_⟩
  · rw [hout]
    exact transform_core_fst_length g colSup codes nicks prot west
  · rw [hout, transform_core_width g colSup codes nicks prot west (by omega)]
    exact survivorCols_length_add g west
  · intro r hr
    rw [hout, transform_core_row g colSup codes nicks prot west hr]
    exact List.length_map _ _
  · intro i hi
    have hmem : (survivorCols g west).getD i 0 ∈ survivorCols g west := by
      rw [getD_eq_getElem _ _ hi]
      exact List.getElem_mem hi
    exact ((mem_survivorCols g west _).mp hmem).2
  · intro c hc hw
    exact (mem_survivorCols g west c).mpr ⟨hc, hw⟩
  · rw [hs]
    rfl

/-- Witness for C5: on gEx, one column is dropped and the width equation
holds. -/
theorem west_columns_removed_witness :
    gwidth outEx + (west_cols gEx "დასავლეთი").length = gwidth gEx :=
  (west_columns_removed gEx ["003"] ["ვანთა"] "გაგრა პლუსი" "დასავლეთი" outEx sEx
    (by decide) (by rfl)).2.1

/-- C6: row-index invariant — the output has the same number of rows; rows
0 through 2 keep every cell in every surviving column (they are never subject
to the clear rule, while West-column removal does apply to them); and on an
eligible data row a clear-set surviving column's cell becomes the explicit
empty string, not a missing marker. -/
theorem header_rows_kept_and_cleared_cells_empty_string
    (g : Grid) (codes nicks : List String) (prot west : String)
    (out : Grid) (s : Summary) (colSup : Nat)
    (hok : transform_order g codes nicks prot west = Except.ok (out, s))
    (hcol : find_col (hdr_nickname g) supplierLabel = some colSup) :
    out.length = g.length ∧
    (∀ r, r < 3 → r < g.length → ∀ i, i < (survivorCols g west).length →
        gcell out r i = gcell g r ((survivorCols g west).getD i 0)) ∧
    (∀ r, 3 ≤ r → r < g.length → is_protected g colSup prot r = false →
        ∀ i, i < (survivorCols g west).length →
          inClearSet g codes nicks ((survivorCols g west).getD i 0) = true →
          gcell out r i = Cell.val "") := by
  obtain ⟨colSup2, hcol2, hout, -⟩ := transform_order_ok_inv g codes nicks prot west out s hok
  rw [hcol] at hcol2
  have hcs : colSup2 = colSup := (Option.some.inj hcol2).symm
  subst hcs
  refine ⟨?_, ?_, ?_⟩
  · rw [hout]
    exact transform_core_fst_length g colSup2 codes nicks prot west
  · intro r hr3 hrn i hi
    rw [hout, gcell_transform_core g colSup2 codes nicks prot west hrn hi]
    exact mutCell_of_lt_three g colSup2 codes nicks prot hr3 _
  · intro r hr3 hrn hnp i hi hcin
    rw [hout, gcell_transform_core g colSup2 codes nicks prot west hrn hi]
    apply mutCell_clear
    · simp [eligibleRow, hnp, hr3]
    · exact hcin

/-- Witness for C6: on gEx the eligible data row 4 has its clear-set column
cell set to the explicit empty string. -/
theorem header_rows_kept_witness : gcell outEx 4 1 = Cell.val "" := by
  have h := (header_rows_kept_and_cleared_cells_empty_string gEx ["003"] ["ვანთა"]
    "გაგრა პლუსი" "დასავლეთი" outEx sEx 0 (by rfl) (by rfl)).2.2 4 (by omega) (by decide)
    (by decide) 1 (by decide) (by decide)
  exact h

/-- C7: missing cells never make the transform fail, but they are read as
the text nan, not as empty text: astype(str) turns NaN into the string nan
and the subsequent fillna is a no-op.  With nickname list containing nan,
the column whose row-0 cell is missing IS cleared. -/
theorem missing_cells_become_nan :
    gcell gC7 0 1 = Cell.na ∧
    Cell.toText Cell.na = "nan" ∧
    transform_order gC7 [] ["nan"] "გაგრა პლუსი" "დასავლეთი" = Except.ok (outC7, sC7) ∧
    gcell outC7 3 1 = Cell.val "" :=
  ⟨rfl, rfl, rfl, rfl⟩

/-- C8: the transform fails exactly when no column's stripped row-0 text
equals the supplier label; on success the column used is the first matching
one and the whole result is the core transform at that column (no partial
output exists on failure, by construction of the Except result). -/
theorem transform_error_iff_no_supplier_col
    (g : Grid) (codes nicks : List String) (prot west : String)
    (hrows : 2 ≤ g.length) :
    ((∃ e, transform_order g codes nicks prot west = Except.error e) ↔
        ∀ c, c < gwidth g → pyStrip ((gcell g 0 c).toText) ≠ supplierLabel) ∧
    (∀ out s, transform_order g codes nicks prot west = Except.ok (out, s) →
        ∃ j, j < gwidth g ∧ pyStrip ((gcell g 0 j).toText) = supplierLabel ∧
          (∀ c, c < j → pyStrip ((gcell g 0 c).toText) ≠ supplierLabel) ∧
          out = (transform_core g j codes nicks prot west).1 ∧
          s = (transform_core g j codes nicks prot west).2) := by
  constructor
  · constructor
    · rintro ⟨e, he⟩
      rw [← find_col_hdr_none_iff]
      cases hf : find_col (hdr_nickname g) supplierLabel with
      | none => rfl
      | some j =>
        rw [transform_order_eq_ok g codes nicks prot west j hf] at he
        exact absurd he (by simp)
    · intro h
      refine ⟨_, transform_order_eq_error g codes nicks prot west ?_⟩
      rw [find_col_hdr_none_iff]
      exact h
  · intro out s hok
    obtain ⟨j, hcol, hout, hs⟩ := transform_order_ok_inv g codes nicks prot west out s hok
    obtain ⟨h1, h2, h3⟩ := (find_col_hdr_some_iff g j).mp hcol
    exact ⟨j, h1, h2, h3, hout, hs⟩

/-- Witness for C8: a grid without the supplier label makes the transform
fail. -/
theorem transform_error_iff_no_supplier_col_witness :
    ∃ e, transform_order gNoSup [] [] "p" "w" = Except.error e :=
  ((transform_error_iff_no_supplier_col gNoSup [] [] "p" "w" (by decide)).1).mpr (by decide)

/-- C9: the loader fails exactly when the reference table has no shop_code
column; when shop_code is present and the optional nickname column is
absent, the loader succeeds with an empty nickname set, and the result is
the same as for the table extended with an all-empty nickname column. -/
theorem load_template_contract (tpl : RefTable) :
    ((∃ e, load_template tpl = Except.error e) ↔ ∀ p ∈ tpl, p.1 ≠ "shop_code") ∧
    (∀ codeCol, lookupCol tpl "shop_code" = some codeCol →
        lookupCol tpl "shop_nickname_optional" = none →
        load_template tpl =
            Except.ok
              ((codeCol.map (fun s => pyStrip (strip_dot0 s))).filter
                  (fun s => !(decide (s = ""))), []) ∧
          load_template tpl
            = load_template (tpl ++ [("shop_nickname_optional", codeCol.map (fun _ => ""))])) := by
  constructor
  · constructor
    · rintro ⟨e, he⟩
      intro p hp hpc
      cases hl : lookupCol tpl "shop_code" with
      | some codeCol =>
        unfold load_template at he
        rw [hl] at he
        exact absurd he (by simp)
      | none =>
        unfold lookupCol at hl
        rw [Option.map_eq_none'] at hl
        have := List.find?_eq_none.mp hl p hp
        simp [hpc] at this
    · intro h
      cases hl : lookupCol tpl "shop_code" with
      | none =>
        exact ⟨"Template must contain a column named shop_code.",
          by unfold load_template; rw [hl]⟩
      | some codeCol =>
        unfold lookupCol at hl
        rw [Option.map_eq_some'] at hl
        obtain ⟨p, hp, -⟩ := hl
        have hmem := List.mem_of_find?_eq_some hp
        have hbeq := List.find?_some hp
        have hname : p.1 = "shop_code" := by simpa using hbeq
        exact absurd hname (h p hmem)
  · intro codeCol hcode hnick
    constructor
    · unfold load_template
      rw [hcode, hnick]
      simp only [Option.getD_none]
      rw [filter_map_const_empty]
    · have hcode2 : lookupCol
          (tpl ++ [("shop_nickname_optional", codeCol.map (fun _ => ""))]) "shop_code"
            = some codeCol := by
        unfold lookupCol at hcode ⊢
        rw [Option.map_eq_some'] at hcode
        obtain ⟨p, hp, hps⟩ := hcode
        rw [List.find?_append, hp]
        simp [hps]
      have hnick2 : lookupCol
          (tpl ++ [("shop_nickname_optional", codeCol.map (fun _ => ""))])
            "shop_nickname_optional" = some (codeCol.map (fun _ => "")) := by
        unfold lookupCol at hnick ⊢
        rw [Option.map_eq_none'] at hnick
        rw [List.find?_append, hnick]
        simp [List.find?]
      unfold load_template
      rw [hcode, hnick, hcode2, hnick2]
      simp only [Option.getD_none, Option.getD_some]

/-- Witness for C9: a table with shop_code present and no nickname column
loads the same as the table with an all-empty nickname column appended. -/
theorem load_template_contract_witness :
    load_template tplW = load_template (tplW ++ [("shop_nickname_optional", [""])]) := by
  have h := ((load_template_contract tplW).2 ["7"] rfl rfl).2
  exact h

/-! Lemmas for re-applying the transform to its own output. -/

lemma transform_core_fst_getElem (g : Grid) (colSup : Nat) (codes nicks : List String)
    (prot west : String) {r : Nat} (hr : r < g.length)
    (h : r < (transform_core g colSup codes nicks prot west).1.length) :
    (transform_core g colSup codes nicks prot west).1[r]
      = (survivorCols g west).map (fun c => mutCell g colSup codes nicks prot r c) := by
  have h2 := transform_core_row g colSup codes nicks prot west hr
  rw [getD_eq_getElem _ _ h] at h2
  exact h2

lemma gcell_transform_header (g : Grid) (colSup : Nat) (codes nicks : List String)
    (prot west : String) {k i : Nat} (hk : k < 3) (hkn : k < g.length)
    (hi : i < (survivorCols g west).length) :
    gcell (transform_core g colSup codes nicks prot west).1 k i
      = gcell g k ((survivorCols g west).getD i 0) := by
  rw [gcell_transform_core g colSup codes nicks prot west hkn hi]
  exact mutCell_of_lt_three g colSup codes nicks prot hk _

lemma inClearSet_transform (g : Grid) (colSup : Nat) (codes nicks : List String)
    (prot west : String) (hrows : 2 ≤ g.length) {i : Nat}
    (hi : i < (survivorCols g west).length) :
    inClearSet (transform_core g colSup codes nicks prot west).1 codes nicks i
      = inClearSet g codes nicks ((survivorCols g west).getD i 0) := by
  have h0 := gcell_transform_header g colSup codes nicks prot west
    (by omega) (by omega : 0 < g.length) hi
  have h1 := gcell_transform_header g colSup codes nicks prot west
    (by omega) (by omega : 1 < g.length) hi
  unfold inClearSet shop_cols_map
  rw [h0, h1]

lemma isWest_transform (g : Grid) (colSup : Nat) (codes nicks : List String)
    (prot west : String) (hg : 1 ≤ g.length) {i : Nat}
    (hi : i < (survivorCols g west).length) :
    isWest (transform_core g colSup codes nicks prot west).1 west i = false := by
  have h0 := gcell_transform_header g colSup codes nicks prot west
    (by omega) (by omega : 0 < g.length) hi
  unfold isWest
  rw [h0]
  have hmem : (survivorCols g west).getD i 0 ∈ survivorCols g west := by
    rw [getD_eq_getElem _ _ hi]
    exact List.getElem_mem hi
  exact ((mem_survivorCols g west _).mp hmem).2

lemma survivorCols_transform (g : Grid) (colSup : Nat) (codes nicks : List String)
    (prot west : String) (hg : 1 ≤ g.length) :
    survivorCols (transform_core g colSup codes nicks prot west).1 west
      = List.range (survivorCols g west).length := by
  have hw := transform_core_width g colSup codes nicks prot west hg
  have step1 : survivorCols (transform_core g colSup codes nicks prot west).1 west
      = (List.range (gwidth (transform_core g colSup codes nicks prot west).1)).filter
          (fun c => !(isWest (transform_core g colSup codes nicks prot west).1 west c)) := rfl
  rw [step1, hw]
  apply List.filter_eq_self.mpr
  intro a ha
  have hai : a < (survivorCols g west).length := List.mem_range.mp ha
  have hfalse := isWest_transform g colSup codes nicks prot west hg hai
  rw [hfalse]
  rfl

lemma find_col_transform (g : Grid) (codes nicks : List String) (prot west : String)
    (colSup : Nat) (hrows : 1 ≤ g.length)
    (hcol : find_col (hdr_nickname g) supplierLabel = some colSup)
    (hwest : pyStarts supplierLabel west = false) :
    ∃ j, j < (survivorCols g west).length ∧ (survivorCols g west).getD j 0 = colSup ∧
      find_col (hdr_nickname (transform_core g colSup codes nicks prot west).1)
        supplierLabel = some j := by
  obtain ⟨hcw, hlab, hfirst⟩ := (find_col_hdr_some_iff g colSup).mp hcol
  have hnw : isWest g west colSup = false := by
    unfold isWest
    rw [hlab]
    exact hwest
  have hmem : colSup ∈ survivorCols g west :=
    (mem_survivorCols g west colSup).mpr ⟨hcw, hnw⟩
  obtain ⟨⟨j, hj⟩, hSj⟩ := List.mem_iff_get.mp hmem
  have hSj' : (survivorCols g west)[j] = colSup := hSj
  have hSjD : (survivorCols g west).getD j 0 = colSup := by
    rw [getD_eq_getElem _ _ hj]
    exact hSj'
  refine ⟨j, hj, hSjD, ?_⟩
  rw [find_col_hdr_some_iff]
  have hwO := transform_core_width g colSup codes nicks prot west hrows
  refine ⟨by rw [hwO]; exact hj, ?_, ?_⟩
  · have h0 := gcell_transform_header g colSup codes nicks prot west
      (by omega) (by omega : 0 < g.length) hj
    rw [h0, hSjD]
    exact hlab
  · intro c hcj
    have hcS : c < (survivorCols g west).length := lt_trans hcj hj
    have h0 := gcell_transform_header g colSup codes nicks prot west
      (by omega) (by omega : 0 < g.length) hcS
    rw [h0]
    have hlt : (survivorCols g west).getD c 0 < colSup := by
      rw [getD_eq_getElem _ _ hcS]
      have hmono := List.pairwise_iff_getElem.mp (survivorCols_pairwise g west) c j hcS hj hcj
      rw [hSj'] at hmono
      exact hmono
    exact hfirst _ hlt

lemma eligibleRow_transform (g : Grid) (codes nicks : List String) (prot west : String)
    (colSup j : Nat) (hj : j < (survivorCols g west).length)
    (hSj : (survivorCols g west).getD j 0 = colSup) {r : Nat} (hr : r < g.length)
    (helig : eligibleRow (transform_core g colSup codes nicks prot west).1 j prot r = true) :
    eligibleRow g colSup prot r = true := by
  unfold eligibleRow at helig ⊢
  rw [Bool.and_eq_true] at helig
  obtain ⟨h3, hnp⟩ := helig
  by_cases hp : is_protected g colSup prot r = true
  · exfalso
    have hc : gcell (transform_core g colSup codes nicks prot west).1 r j
        = gcell g r colSup := by
      rw [gcell_transform_core g colSup codes nicks prot west hr hj, hSj]
      exact mutCell_of_protected g colSup codes nicks prot hp _
    have hp2 : is_protected (transform_core g colSup codes nicks prot west).1 j prot r
        = true := by
      unfold is_protected at hp ⊢
      rw [hc]
      exact hp
    rw [hp2] at hnp
    simp at hnp
  · have hpf : is_protected g colSup prot r = false := by
      cases hval : is_protected g colSup prot r with
      | false => rfl
      | true => exact absurd hval hp
    rw [Bool.and_eq_true]
    refine ⟨h3, ?_⟩
    rw [hpf]
    rfl

lemma transform_core_idem_grid (g : Grid) (codes nicks : List String) (prot west : String)
    (colSup j : Nat) (hrows : 2 ≤ g.length)
    (hj : j < (survivorCols g west).length)
    (hSj : (survivorCols g west).getD j 0 = colSup) :
    (transform_core (transform_core g colSup codes nicks prot west).1
        j codes nicks prot west).1
      = (transform_core g colSup codes nicks prot west).1 := by
  have hlenO : (transform_core g colSup codes nicks prot west).1.length = g.length :=
    transform_core_fst_length g colSup codes nicks prot west
  apply List.ext_getElem
  · rw [transform_core_fst_length, hlenO]
  intro r hr1 hr2
  have hrg : r < g.length := by
    rw [hlenO] at hr2
    exact hr2
  have hrO : r < (transform_core g colSup codes nicks prot west).1.length := hr2
  rw [transform_core_fst_getElem (transform_core g colSup codes nicks prot west).1
      j codes nicks prot west (by rw [hlenO]; exact hrg) hr1]
  rw [transform_core_fst_getElem g colSup codes nicks prot west hrg hr2]
  rw [survivorCols_transform g colSup codes nicks prot west (by omega)]
  apply List.ext_getElem
  · rw [List.length_map, List.length_map, List.length_range]
  intro i hi1 hi2
  have hiS : i < (survivorCols g west).length := by
    rw [List.length_map, List.length_range] at hi1
    exact hi1
  rw [List.getElem_map, List.getElem_map, List.getElem_range]
  have hSiD : (survivorCols g west).getD i 0 = (survivorCols g west)[i] :=
    getD_eq_getElem _ _ hiS
  cases hb : (eligibleRow (transform_core g colSup codes nicks prot west).1 j prot r
      && inClearSet (transform_core g colSup codes nicks prot west).1 codes nicks i) with
  | true =>
    rw [Bool.and_eq_true] at hb
    obtain ⟨helig2, hclr2⟩ := hb
    have helig1 := eligibleRow_transform g codes nicks prot west colSup j hj hSj hrg helig2
    have hclr1 : inClearSet g codes nicks ((survivorCols g west)[i]) = true := by
      rw [← hSiD, ← inClearSet_transform g colSup codes nicks prot west hrows hiS]
      exact hclr2
    rw [mutCell_clear (transform_core g colSup codes nicks prot west).1
        j codes nicks prot helig2 hclr2]
    rw [mutCell_clear g colSup codes nicks prot helig1 hclr1]
  | false =>
    rw [mutCell_not_clear (transform_core g colSup codes nicks prot west).1
        j codes nicks prot hb]
    rw [gcell_transform_core g colSup codes nicks prot west hrg hiS, hSiD]

/-- C10 counterexample: the claim as stated fails.  On gCX with west value ძ
(a one-letter value the supplier label starts with) the first application
succeeds and drops the supplier column itself; applying the transform a
second time to the produced grid then fails with the structure error instead
of returning that same grid. -/
theorem transform_idempotent_counterexample :
    transform_order gCX [] [] "p" "ძ" = Except.ok (outCX, sCX) ∧
    transform_order outCX [] [] "p" "ძ" =
      Except.error "Could not find supplier column in the first row." :=
  ⟨rfl, rfl⟩

/-- C10 (amended): provided the supplier label does not start with the west
value — so the supplier column itself survives — applying the transform a
second time to the grid produced by the first application succeeds and
returns that same grid unchanged: the second run drops no column and changes
no cell. -/
theorem transform_idempotent
    (g : Grid) (codes nicks : List String) (prot west : String)
    (out : Grid) (s : Summary)
    (hrows : 2 ≤ g.length)
    (hok : transform_order g codes nicks prot west = Except.ok (out, s))
    (hwest : pyStarts supplierLabel west = false) :
    ∃ s2, transform_order out codes nicks prot west = Except.ok (out, s2) := by
  obtain ⟨colSup, hcol, hout, -⟩ := transform_order_ok_inv g codes nicks prot west out s hok
  obtain ⟨j, hj, hSj, hfc⟩ :=
    find_col_transform g codes nicks prot west colSup (by omega) hcol hwest
  subst hout
  refine ⟨(transform_core (transform_core g colSup codes nicks prot west).1
      j codes nicks prot west).2, ?_⟩
  rw [transform_order_eq_ok (transform_core g colSup codes nicks prot west).1
      codes nicks prot west j hfc]
  have hgrid := transform_core_idem_grid g codes nicks prot west colSup j hrows hj hSj
  exact congrArg Except.ok (Prod.ext hgrid rfl)

/-- Witness for C10 amended: re-applying the transform to outEx returns
outEx itself. -/
theorem transform_idempotent_witness :
    ∃ s2, transform_order outEx ["003"] ["ვანთა"] "გაგრა პლუსი" "დასავლეთი"
      = Except.ok (outEx, s2) :=
  transform_idempotent gEx ["003"] ["ვანთა"] "გაგრა პლუსი" "დასავლეთი" outEx sEx
    (by decide) (by rfl) (by rfl)

end OrderCleaner
